import Mathlib

/-!
A verification development for the `forsenvods` segment-detection core
(`main.py`, with the cache step of `main_upgraded.py`).

The detection engine is shallowly embedded: pure Python functions become Lean
functions, the OCR/file-system collaborators become oracle functions bundled in
an environment, the module-global `last_title` mutable state is threaded
explicitly, and every `while` loop becomes a structural recursion on an
explicit fuel argument chosen in the wrapper so that the fuel can never run
out before the Python loop condition fails.  Machine integers are `Int`/`Nat`
(Python integers are unbounded, so no overflow modelling is needed); the
floating-point similarity scores of rapidfuzz are modelled as exact rationals.
OCR text is assumed ASCII, as the spec's non-goals state.
-/

/-! ### Basic character classes (Python regex classes, ASCII range) -/

/-- Python regex `\w` on ASCII text: letters, digits and underscore. -/
def isWordChar (c : Char) : Bool := c.isAlphanum || c == '_'

/-- The character class `[a-zA-Z0-9_-]` used by every YouTube-ID pattern. -/
def isIdChar (c : Char) : Bool := c.isAlphanum || c == '_' || c == '-'

/-! ### String similarity (`calculate_similarity`, main.py lines 63-81)

`calculate_similarity` delegates to `rapidfuzz.fuzz.token_sort_ratio` (the
`USING_RAPIDFUZZ = True` branch).  rapidfuzz's documented behaviour is
modelled exactly: split each string on whitespace runs, sort the tokens
lexicographically, join with single spaces, and return the normalized Indel
similarity of the two joined strings, which equals
`2 * lcs / (len1 + len2)`.  rapidfuzz returns a score in [0,100] which the
source divides by 100; we keep the [0,1] rational directly. -/

/-- Split on whitespace runs, dropping empty tokens (Python `str.split()`). -/
def splitWsAux : List Char → List Char → List String
  | [], cur => if cur.isEmpty then [] else [String.mk cur.reverse]
  | c :: rest, cur =>
    if c.isWhitespace then
      if cur.isEmpty then splitWsAux rest []
      else String.mk cur.reverse :: splitWsAux rest []
    else splitWsAux rest (c :: cur)

def splitWs (s : String) : List String := splitWsAux s.data []

/-- Longest common subsequence length, with explicit fuel (the fuel passed by
`lcsLen` is the sum of the lengths, which always suffices since every
recursive call removes at least one character). -/
def lcsFuel : Nat → List Char → List Char → Nat
  | 0, _, _ => 0
  | _ + 1, [], _ => 0
  | _ + 1, _ :: _, [] => 0
  | fuel + 1, a :: as, b :: bs =>
    if a = b then lcsFuel fuel as bs + 1
    else max (lcsFuel fuel (a :: as) bs) (lcsFuel fuel as (b :: bs))

def lcsLen (a b : List Char) : Nat := lcsFuel (a.length + b.length) a b

/-- Lexicographic code-point comparison of strings (Python `<` on `str`). -/
def lexLt : List Char → List Char → Bool
  | [], [] => false
  | [], _ :: _ => true
  | _ :: _, [] => false
  | a :: as, b :: bs => if a = b then lexLt as bs else decide (a < b)

/-- Stable ascending sort of strings (Python `sorted` on `str` compares by
code points). -/
def insertStr (x : String) : List String → List String
  | [] => [x]
  | y :: ys => if lexLt y.data x.data then y :: insertStr x ys else x :: y :: ys

def sortStrs : List String → List String
  | [] => []
  | x :: xs => insertStr x (sortStrs xs)

/-- Model of `rapidfuzz.fuzz.token_sort_ratio(s1, s2) / 100`.  The score
`2 * lcs / (len1 + len2)` is built with `Rat.divInt`, which denotes exactly
the same rational as the division (rapidfuzz computes it in floating point;
all values compared against the 0.4 threshold in this development are far
from the representation boundary). -/
def token_sort_score (s1 s2 : String) : ℚ :=
  let x := String.intercalate " " (sortStrs (splitWs s1))
  let y := String.intercalate " " (sortStrs (splitWs s2))
  let n := x.length + y.length
  if n = 0 then 1 else Rat.divInt (2 * (lcsLen x.data y.data : Int)) (n : Int)

/-- main.py lines 63-81 (`USING_RAPIDFUZZ` branch). -/
def calculate_similarity (str1 str2 : String) : ℚ :=
  if str1 = "" ∨ str2 = "" then 0 else token_sort_score str1 str2

/-! ### Configuration constants (main.py lines 29-34) -/

def INTERVAL_SECONDS : Int := 3

/-- `SIMILARITY_THRESHOLD = 0.4` (main.py line 30), as the exact rational. -/
def SIMILARITY_THRESHOLD : ℚ := Rat.divInt 2 5
def FRAME_JUMP : Nat := 10
def MAX_GAP_SECONDS : Int := 60
def MIN_SEGMENT_DURATION : Int := 5

/-! ### Title similarity (`is_similar_title`, main.py lines 84-108) -/

def is_similar_title (title1 title2 : String) : Bool :=
  if title1 = "" || title2 = "" then false
  else if title1 = "No Title" && title2 != "" && title2 != "No Title" then false
  else if title2 = "No Title" && title1 != "" && title1 != "No Title" then false
  else if title1 = title2 then true
  else if SIMILARITY_THRESHOLD ≤ calculate_similarity title1 title2 then true
  else false

/-! ### Identity similarity (`is_same_youtube_id`, main.py lines 111-162)

Python's `.lower()` and `.startswith(...)` and `id[:5]` are realised on the
character lists: `.lower()` is per-character on ASCII, and `id[:5].lower()`
equals taking 5 characters of the lowercased string. -/

/-- `a = b` checked character by character (prefix test). -/
def listIsPrefix : List Char → List Char → Bool
  | [], _ => true
  | _ :: _, [] => false
  | a :: as, b :: bs => if a = b then listIsPrefix as bs else false

/-- Characters of `s.lower()` (Python `str.lower`, ASCII). -/
def lowerChars (s : String) : List Char := s.data.map Char.toLower

/-- Python `s.lower().startswith(p)`. -/
def startsLower (s p : String) : Bool := listIsPrefix p.data (lowerChars s)

def is_same_youtube_id : Option String → Option String → Bool
  | none, _ => false
  | some _, none => false
  | some id1, some id2 =>
    if id1 = id2 then true
    else if startsLower id1 "angl" && startsLower id2 "angl" then true
    else if startsLower id1 "angl" && startsLower id2 "anyl" then true
    else if startsLower id1 "anyl" && startsLower id2 "angl" then true
    else if startsLower id1 "impwa" && startsLower id2 "impwa" then true
    else if startsLower id1 "impma" && startsLower id2 "impwa" then true
    else if startsLower id1 "impa" && startsLower id2 "impwa" then true
    else if startsLower id1 "imym" && startsLower id2 "impwa" then true
    else if startsLower id1 "imym" && startsLower id2 "impma" then true
    else if lowerChars id1 = lowerChars id2 then true
    else if 5 ≤ id1.length && 5 ≤ id2.length
            && (lowerChars id1).take 5 = (lowerChars id2).take 5 then true
    else if SIMILARITY_THRESHOLD ≤ calculate_similarity id1 id2 then true
    else false

/-! ### Identity extraction (`extract_youtube_id`, main.py lines 166-209)

The Python function runs `re.search` with a fixed list of patterns.  Each
pattern is a literal prefix (or an alternation of literal prefixes, tried in
order) followed by a run of ID characters (`[a-zA-Z0-9_-]`), of length
exactly 11 (`{11}`) or at least 5 (`{5,}`, greedy).  `re.search` semantics —
leftmost match position, alternatives in order at each position — is realised
by scanning every suffix left to right.  Since no literal prefix character is
itself optional, backtracking never changes the outcome and the scan is
exact. -/

/-- Literal prefix, then exactly 11 ID characters (`{11}` consumes the next
11 characters of the class, requiring at least 11 to be present). -/
def matchPrefix11 (pat : List Char) (s : List Char) : Option (List Char) :=
  if listIsPrefix pat s then
    let run := (s.drop pat.length).takeWhile isIdChar
    if 11 ≤ run.length then some (run.take 11) else none
  else none

/-- Literal prefix, then a greedy run of at least 5 ID characters. -/
def matchPrefixMin5 (pat : List Char) (s : List Char) : Option (List Char) :=
  if listIsPrefix pat s then
    let run := (s.drop pat.length).takeWhile isIdChar
    if 5 ≤ run.length then some run else none
  else none

/-- `youtube\.com/user/\w+/\w+/([a-zA-Z0-9_-]{11})`: the two `\w+` groups are
forced to their greedy extent because `/` is not a word character, so no
backtracking can produce a different match. -/
def matchUser11 (s : List Char) : Option (List Char) :=
  if listIsPrefix "youtube.com/user/".data s then
    let r1 := s.drop "youtube.com/user/".data.length
    let w1 := r1.takeWhile isWordChar
    if w1.isEmpty then none
    else
      match r1.drop w1.length with
      | '/' :: r2 =>
        let w2 := r2.takeWhile isWordChar
        if w2.isEmpty then none
        else
          match r2.drop w2.length with
          | '/' :: r3 =>
            let run := r3.takeWhile isIdChar
            if 11 ≤ run.length then some (run.take 11) else none
          | _ => none
      | _ => none
  else none

/-- First alternative that matches at this position (regex alternation). -/
def tryAlts (m : List Char → List Char → Option (List Char))
    (pats : List (List Char)) (s : List Char) : Option (List Char) :=
  match pats with
  | [] => none
  | p :: ps =>
    match m p s with
    | some r => some r
    | none => tryAlts m ps s

/-- Leftmost position at which the positional matcher succeeds (`re.search`). -/
def searchOne (m : List Char → Option (List Char)) : List Char → Option (List Char)
  | [] => none
  | c :: rest =>
    match m (c :: rest) with
    | some r => some r
    | none => searchOne m rest

/-- main.py lines 166-209. -/
def extract_youtube_id (url : String) : Option String :=
  if url = "" || url = "None" then none
  else if lowerChars url = "youtube".data || lowerChars url = "youtube.com".data then none
  else
    let s := url.data
    -- standard patterns, 11-character IDs
    let p1 := searchOne (tryAlts matchPrefix11 ["youtube.com/watch?v=".data, "youtu.be/".data]) s
    let p2 := searchOne (matchPrefix11 "youtube.com/embed/".data) s
    let p3 := searchOne (matchPrefix11 "youtube.com/v/".data) s
    let p4 := searchOne matchUser11 s
    -- flexible patterns, any length at least 5
    let f1 := searchOne (matchPrefixMin5 "youtube.com/watch?v=".data) s
    let f2 := searchOne (matchPrefixMin5 "youtu.be/".data) s
    -- bare token: `^[a-zA-Z0-9_-]{5,}$`
    let bare := if s.all isIdChar && 5 ≤ s.length then some s else none
    -- last resort: `v=([a-zA-Z0-9_-]{5,})` anywhere
    let vEq := searchOne (matchPrefixMin5 "v=".data) s
    (p1 <|> p2 <|> p3 <|> p4 <|> f1 <|> f2 <|> bare <|> vEq).map String.mk



/-! ### The scan environment

`get_youtube_url_from_frame` (with a warm cache), seen from the scan loop, is
a pure function of the frame index: it yields the cached-or-OCR'd text for the
URL crop, with the conventions that a missing frame file, a failed OCR call or
empty text all yield the string `"None"` (which `extract_youtube_id` maps to
`none`).  The title crop of `get_youtube_id_from_frame` is likewise an oracle:
`titleObs n = none` models a missing title frame file (the global `last_title`
is left untouched), and `titleObs n = some t` models an OCR result `t`, with
`t = ""` standing for both an empty read and a failed OCR call (Python
collapses the two through its truthiness test, `title if title else
"No Title"`).  The module-global mutable `last_title` (main.py line 35,
updated at line 347 whenever an ID is found and the title file exists, since
`DEBUG_MODE = True`) is threaded explicitly through every function that can
call `get_youtube_id_from_frame`. -/

structure ScanEnv where
  urlText : Nat → String
  titleObs : Nat → Option String

/-- The YouTube ID observed at frame `n` (main.py lines 334-337). -/
def frameId (env : ScanEnv) (n : Nat) : Option String :=
  extract_youtube_id (env.urlText n)

/-- The `last_title` update of main.py lines 343-349. -/
def updateTitle (env : ScanEnv) (n : Nat) (lt : String) : String :=
  match env.titleObs n with
  | none => lt
  | some t => if t = "" then "No Title" else t

/-- `get_youtube_id_from_frame` (main.py lines 334-353): returns the ID found
at the frame together with the value of `last_title` after the call (its
third return value).  The title OCR runs only when an ID was found. -/
def getFrame (env : ScanEnv) (n : Nat) (lt : String) : Option String × String :=
  match frameId env n with
  | some i => (some i, updateTitle env n lt)
  | none => (none, lt)

/-- Probing a frame given as a Python `int` that may be negative: a negative
index produces a frame path that cannot exist, so the OCR layer returns
`"None"` and no ID is found (and `last_title` is untouched). -/
def getFrameAt (env : ScanEnv) (m : Int) (lt : String) : Option String × String :=
  if m < 0 then (none, lt) else getFrame env m.toNat lt

/-! ### `find_exact_start` (main.py lines 387-416)

The `while start <= end` binary search becomes a recursion on fuel; the
wrapper passes one more than the bracket width, which the search can never
exhaust because every iteration shrinks the bracket.  Python's `//` is floor
division; Lean's `/` on `Int` is `Int.ediv`, which agrees with floor division
for the positive divisor 2.  When the fuel pattern
`0` is reached the bracket is already empty, so returning the current result
agrees with the Python loop exit. -/

def fesBin (env : ScanEnv) (ytid : String) :
    Nat → Int → Int → Int → String → Int × String
  | 0, _, _, res, lt => (res, lt)
  | fuel + 1, start, stop, res, lt =>
    if start ≤ stop then
      let mid := (start + stop) / 2
      let probe := getFrameAt env mid lt
      if is_same_youtube_id probe.1 (some ytid) then
        fesBin env ytid fuel start (mid - 1) mid probe.2
      else
        fesBin env ytid fuel (mid + 1) stop res probe.2
    else (res, lt)

def find_exact_start (env : ScanEnv) (frame_index : Nat) (ytid : String)
    (last_segment_end : Int) (lt : String) : Nat × String :=
  let lo : Int := max (last_segment_end + 1) ((frame_index : Int) - 30)
  let fuel : Nat := ((frame_index : Int) - lo + 2).toNat
  let r := fesBin env ytid fuel lo (frame_index : Int) (frame_index : Int) lt
  (r.1.toNat, r.2)

/-! ### `find_segment_end` (main.py lines 420-472)

Phase (a): coarse forward jumps of `FRAME_JUMP` while the ID still matches;
phase (b): binary search inside `[last matching, first non-matching]`.  The
coarse loop's fuel `total + 1` cannot be exhausted since the loop runs only
while `current < total` and `current` grows by 10 each iteration.  If the
coarse scan runs past the recording, Python returns `total_frames - 1`; for
`total = 0` Python would return `-1` where the `Nat` embedding returns `0` —
that degenerate case (no frames at all, yet a detected segment) is unreachable
from the scan loop and outside every claim. -/

def fseScan (env : ScanEnv) (ytid : String) (total : Nat) :
    Nat → Nat → Nat → String → Nat × Nat × String
  | 0, current, last, lt => (current, last, lt)
  | fuel + 1, current, last, lt =>
    if current < total then
      let probe := getFrame env current lt
      if is_same_youtube_id probe.1 (some ytid) then
        fseScan env ytid total fuel (current + FRAME_JUMP) current probe.2
      else (current, last, probe.2)
    else (current, last, lt)

def fseBin (env : ScanEnv) (ytid : String) :
    Nat → Int → Int → Int → String → Int × String
  | 0, _, _, res, lt => (res, lt)
  | fuel + 1, start, stop, res, lt =>
    if start ≤ stop then
      let mid := (start + stop) / 2
      let probe := getFrameAt env mid lt
      if is_same_youtube_id probe.1 (some ytid) then
        fseBin env ytid fuel (mid + 1) stop mid probe.2
      else
        fseBin env ytid fuel start (mid - 1) res probe.2
    else (res, lt)

def find_segment_end (env : ScanEnv) (start_frame : Nat) (ytid : String)
    (total : Nat) (lt : String) : Nat × String :=
  let scan := fseScan env ytid total (total + 1) start_frame start_frame lt
  let current := scan.1
  let last := scan.2.1
  if total ≤ current then (total - 1, scan.2.2)
  else
    let fuel : Nat := ((current : Int) - (last : Int) + 2).toNat
    let r := fseBin env ytid fuel (last : Int) (current : Int) (last : Int) scan.2.2
    (r.1.toNat, r.2)

/-! ### Scan loop (`find_youtube_segments`, main.py lines 476-551) -/

structure RawSeg where
  vid : String
  startT : Int
  endT : Int
  title : String
  startF : Nat
  endF : Nat
deriving DecidableEq

/-- End-buffering policy, main.py lines 516-530: look at the sample after the
located end; a *different* ID there means a new segment starts at once (no
buffer), otherwise 5 samples of buffer are added, capped at the last frame. -/
def bufferedEndOf (env : ScanEnv) (ytid : String) (total : Nat)
    (segment_end_frame : Nat) (lt : String) : Nat × String :=
  let nxt := segment_end_frame + 1
  let probe := if nxt < total then getFrame env nxt lt else (none, lt)
  (if probe.1.isSome && !(is_same_youtube_id (some ytid) probe.1) then
     segment_end_frame
   else
     min (segment_end_frame + 5) (total - 1),
   probe.2)

/-- The `while frame_index < total_frames` loop of `find_youtube_segments`.
Raw segments carry `(id, start_time, end_time, title, start_frame,
buffered_end_frame)` exactly as appended at main.py line 540; the title
stored is the one returned by the `get_youtube_id_from_frame` call at line
499, not the later `last_title` state.  The loop terminates because each
iteration either advances `frame_index` by `FRAME_JUMP` or strictly increases
`last_segment_end` (to the buffered end, which is at least
`last_segment_end + 1`) — so `(total + 2)^2` fuel, passed by the wrapper,
can never be exhausted while `frame_index < total`. -/
def scanLoop (env : ScanEnv) (total : Nat) :
    Nat → Nat → Int → String → List RawSeg → List RawSeg
  | 0, _, _, _, acc => acc
  | fuel + 1, frame_index, last_segment_end, lt, acc =>
    if frame_index < total then
      let got := getFrame env frame_index lt
      match got.1 with
      | some ytid =>
        if acc ≠ [] && (frame_index : Int) ≤ last_segment_end then
          scanLoop env total fuel (frame_index + FRAME_JUMP) last_segment_end got.2 acc
        else
          let fes := find_exact_start env frame_index ytid last_segment_end got.2
          let fse := find_segment_end env fes.1 ytid total fes.2
          let buf := bufferedEndOf env ytid total fse.1 fse.2
          let start_time : Int := (fes.1 : Int) * INTERVAL_SECONDS
          let end_time : Int := (buf.1 : Int) * INTERVAL_SECONDS
          let acc2 :=
            if 2 ≤ end_time - start_time then
              acc ++ [⟨ytid, start_time, end_time, got.2, fes.1, buf.1⟩]
            else acc
          scanLoop env total fuel (buf.1 + 1) (buf.1 : Int) buf.2 acc2
      | none =>
        scanLoop env total fuel (frame_index + FRAME_JUMP) last_segment_end got.2 acc
    else acc

/-! ### Segment merging (`merge_similar_segments`, main.py lines 555-648)

Python first sorts the raw segments by start time with the stable `sorted`;
the embedding uses a stable insertion sort, which computes the same list.
The nested `while` loops walk the sorted list once, extending an accumulator
segment as long as the next segment merges, and closing it otherwise — a
single structural recursion over the sorted tail. -/

structure Seg where
  vid : String
  startT : Int
  endT : Int
  title : String
deriving DecidableEq

/-- The merge test of main.py lines 588-608: time gap within
`MAX_GAP_SECONDS` and (IDs match or titles match). -/
def mergeShould (curr nxt : RawSeg) : Bool :=
  nxt.startT - curr.endT ≤ MAX_GAP_SECONDS
    && (is_same_youtube_id (some curr.vid) (some nxt.vid)
        || is_similar_title curr.title nxt.title)

/-- Python regex `[^\w\s\[\]\(\)\-\+\.,;:!?]` (main.py lines 620-621): true
iff the title contains a character outside word characters, whitespace and
the listed punctuation. -/
def hasBadTitleChar (t : String) : Bool :=
  t.data.any fun c =>
    !(isWordChar c || c.isWhitespace
      || ['[', ']', '(', ')', '-', '+', '.', ',', ';', ':', '!', '?'].contains c)

/-- The accumulator update on a merge, main.py lines 615-628: the longer ID
wins (ties keep the current one); the next title replaces the current one
only if it is non-empty, strictly longer, and free of disallowed characters;
the end takes the next segment's end. -/
def mergeUpd (curr nxt : RawSeg) : RawSeg where
  vid := if curr.vid.length ≥ nxt.vid.length then curr.vid else nxt.vid
  startT := curr.startT
  endT := nxt.endT
  title :=
    if nxt.title ≠ "" && curr.title.length < nxt.title.length
        && !hasBadTitleChar nxt.title then
      nxt.title
    else curr.title
  startF := curr.startF
  endF := nxt.endF

/-- Dropping the two frame fields when a merged segment is emitted
(main.py line 638). -/
def closeSeg (c : RawSeg) : Seg := ⟨c.vid, c.startT, c.endT, c.title⟩

/-- The nested merge walk (main.py lines 574-645) over the sorted tail. -/
def mergeLoop : List RawSeg → RawSeg → List Seg
  | [], curr => [closeSeg curr]
  | nxt :: rest, curr =>
    if mergeShould curr nxt then mergeLoop rest (mergeUpd curr nxt)
    else closeSeg curr :: mergeLoop rest nxt

/-- Stable insertion sort by start time — the same list as Python's
`sorted(segments, key=lambda x: x[1])`. -/
def insertByStart (x : RawSeg) : List RawSeg → List RawSeg
  | [] => [x]
  | y :: ys => if y.startT < x.startT then y :: insertByStart x ys else x :: y :: ys

def sortByStart : List RawSeg → List RawSeg
  | [] => []
  | x :: xs => insertByStart x (sortByStart xs)

/-- main.py lines 555-648. -/
def merge_similar_segments (segments : List RawSeg) : List Seg :=
  match sortByStart segments with
  | [] => []
  | s :: rest => mergeLoop rest s

/-- The post-merge minimum-duration filter of the `__main__` block
(main.py lines 698-707). -/
def filter_min_duration (segs : List Seg) : List Seg :=
  segs.filter fun s => MIN_SEGMENT_DURATION ≤ s.endT - s.startT

/-- `find_youtube_segments` (main.py lines 476-551): scan, then merge. -/
def find_youtube_segments (env : ScanEnv) (total : Nat) : List Seg :=
  merge_similar_segments (scanLoop env total ((total + 2) * (total + 2)) 0 (-1) "" [])

/-! ### The OCR cache (`get_youtube_url_from_frame`, main.py lines 295-330)

The cache is the Python dict keyed by `str(index)`, modelled as an
association list with dict-update semantics.  The collaborators are oracles:
`frameExists` is the file-system check at line 297, `ocrText` is
`get_text_from_image` (line 307), with `none` for a failed OCR call.  The
state also counts the externally visible effects the claims are about:
`saves` counts `save_cache` calls (flushes to disk) and `calls` counts OCR
collaborator invocations. -/

structure OcrEnv where
  frameExists : Nat → Bool
  ocrText : Nat → Option String

structure CacheState where
  entries : List (String × String)
  saves : Nat
  calls : Nat
deriving DecidableEq

/-- Python dict assignment `cache[k] = v`. -/
def insertAssoc {κ β : Type} [DecidableEq κ] (k : κ) (v : β) :
    List (κ × β) → List (κ × β)
  | [] => [(k, v)]
  | (k2, v2) :: rest =>
    if k = k2 then (k, v) :: rest else (k2, v2) :: insertAssoc k v rest

/-- Dict lookup. -/
def lookupAssoc {κ β : Type} [DecidableEq κ] (k : κ) :
    List (κ × β) → Option β
  | [] => none
  | (k2, v2) :: rest => if k = k2 then some v2 else lookupAssoc k rest

/-- The three URL regexes of main.py lines 313-317.  `https?` and
`(?:www\.)?` expand to literal-prefix alternatives — at any position at most
one of the expansions can match, because the continuations diverge at the
first character, so listing the expansions is exact.  `re.findall` with a
groupless pattern returns whole matches, hence the matched prefix is kept. -/
def matchUrlRun (pat : List Char) (s : List Char) : Option (List Char) :=
  if listIsPrefix pat s then
    let run := (s.drop pat.length).takeWhile isIdChar
    if 1 ≤ run.length then some (pat ++ run) else none
  else none

def url_from_text (t : String) : Option String :=
  let s := t.data
  let p1 := searchOne (tryAlts matchUrlRun
    ["https://www.youtube.com/watch?v=".data, "https://youtube.com/watch?v=".data,
     "http://www.youtube.com/watch?v=".data, "http://youtube.com/watch?v=".data]) s
  let p2 := searchOne (tryAlts matchUrlRun
    ["https://youtu.be/".data, "http://youtu.be/".data]) s
  let p3 := searchOne (matchUrlRun "youtube.com/watch?v=".data) s
  (p1 <|> p2 <|> p3).map String.mk

/-- main.py lines 295-330.  On a cache hit the stored string is returned with
no OCR call and no state change; on a miss the OCR collaborator runs once,
the result (a URL if one is found in the text, else the raw text, else
`"None"`) is stored, and `save_cache` flushes the cache — after every single
new entry. -/
def get_youtube_url_from_frame (env : OcrEnv) (index : Nat) (st : CacheState) :
    String × CacheState :=
  if !(env.frameExists index) then ("None", st)
  else
    match lookupAssoc (toString index) st.entries with
    | some v => (v, st)
    | none =>
      let result :=
        match env.ocrText index with
        | none => "None"
        | some t =>
          if t = "" then "None"
          else
            match url_from_text t with
            | some u => u
            | none => t
      (result,
       { entries := insertAssoc (toString index) result st.entries,
         saves := st.saves + 1,
         calls := st.calls + 1 })

/-! ### The cache step of `detect_segments` (main_upgraded.py lines 203-212)

Keys are the integer frame indices; on a miss, `ocr_text` runs once per crop
(two calls) and the cache file is rewritten only when `idx % 100 == 0`. -/

structure UpCacheState where
  entries : List (Nat × (String × String))
  flushes : Nat
  calls : Nat
deriving DecidableEq

def detect_cache_step (ocrUrl ocrTitle : Nat → String) (idx : Nat)
    (st : UpCacheState) : (String × String) × UpCacheState :=
  match lookupAssoc idx st.entries with
  | some p => (p, st)
  | none =>
    let p := (ocrUrl idx, ocrTitle idx)
    (p,
     { entries := insertAssoc idx p st.entries,
       flushes := if idx % 100 = 0 then st.flushes + 1 else st.flushes,
       calls := st.calls + 2 })

/-! ### Derived probe views and concrete environments

`fesBinP`, `fseScanP` and `fseBinP` are the probe-only views of the three
search loops: the threaded `last_title` state never influences which frames
are probed, so each loop, projected to its frame result, is a pure binary
search or scan over the ID predicate.  The equivalence is proved below for
environments whose title oracle never fires; the views exist only to let
concrete instances be evaluated. -/

/-- The ID observed at a (possibly negative) Python index. -/
def frameIdAt (env : ScanEnv) (m : Int) : Option String :=
  if m < 0 then none else frameId env m.toNat

/-- The probe predicate of `find_exact_start` / `find_segment_end`:
does frame `m` carry an ID matching the target? -/
def probeAt (env : ScanEnv) (ytid : String) (m : Int) : Bool :=
  is_same_youtube_id (frameIdAt env m) (some ytid)

def fesBinP (p : Int → Bool) : Nat → Int → Int → Int → Int
  | 0, _, _, res => res
  | fuel + 1, start, stop, res =>
    if start ≤ stop then
      let mid := (start + stop) / 2
      if p mid then fesBinP p fuel start (mid - 1) mid
      else fesBinP p fuel (mid + 1) stop res
    else res

def fseScanP (p : Nat → Bool) (total : Nat) : Nat → Nat → Nat → Nat × Nat
  | 0, current, last => (current, last)
  | fuel + 1, current, last =>
    if current < total then
      if p current then fseScanP p total fuel (current + FRAME_JUMP) current
      else (current, last)
    else (current, last)

def fseBinP (p : Int → Bool) : Nat → Int → Int → Int → Int
  | 0, _, _, res => res
  | fuel + 1, start, stop, res =>
    if start ≤ stop then
      let mid := (start + stop) / 2
      if p mid then fseBinP p fuel (mid + 1) stop mid
      else fseBinP p fuel start (mid - 1) res
    else res

/-- The probe predicate at a `Nat` index, as used by the coarse forward scan. -/
def probeAtN (env : ScanEnv) (ytid : String) (n : Nat) : Bool :=
  is_same_youtube_id (frameId env n) (some ytid)

/-- Pure mirror of `find_exact_start`, projected to the frame result. -/
def find_exact_start_P (p : Int → Bool) (frame_index : Nat) (last_segment_end : Int) : Nat :=
  let lo : Int := max (last_segment_end + 1) ((frame_index : Int) - 30)
  let fuel : Nat := ((frame_index : Int) - lo + 2).toNat
  (fesBinP p fuel lo (frame_index : Int) (frame_index : Int)).toNat

/-- Pure mirror of `find_segment_end`, projected to the frame result. -/
def find_segment_end_P (pN : Nat → Bool) (p : Int → Bool) (start_frame total : Nat) : Nat :=
  let scan := fseScanP pN total (total + 1) start_frame start_frame
  if total ≤ scan.1 then total - 1
  else
    let fuel : Nat := ((scan.1 : Int) - (scan.2 : Int) + 2).toNat
    (fseBinP p fuel (scan.2 : Int) (scan.1 : Int) (scan.2 : Int)).toNat

/-- The synthetic sample sequence of the spec's boundary-locator test:
identity "ABCDE12345" extractable at exactly the samples 10..40, no title
frames. -/
def abcdeEnv : ScanEnv :=
  ⟨fun n => if 10 ≤ n ∧ n ≤ 40 then "ABCDE12345" else "None", fun _ => none⟩

/-- A sample sequence with one identity run on samples 10..40 and constant
title text, used to run the full scan loop on a concrete input. -/
def envW : ScanEnv :=
  ⟨fun n => if 10 ≤ n ∧ n ≤ 40 then "abcdefghijk" else "None", fun _ => some "T"⟩

/-- A recording carrying no identity anywhere. -/
def envNone : ScanEnv := ⟨fun _ => "None", fun _ => none⟩

/-- Re-injecting a merged segment into the merger's input type: the merger's
output drops the two frame fields, so feeding the output back (as the
idempotence property of the spec requires) pads them with zeros; the merge
walk never reads `startF`/`endF` of its input except to copy them, and its
`Seg` output does not contain them. -/
def segToRaw (s : Seg) : RawSeg :=
  ⟨s.vid, s.startT, s.endT, s.title, 0, 0⟩

/-! ## Supporting lemmas -/

section ExtractLength

theorem matchPrefix11_length {pat s r} (h : matchPrefix11 pat s = some r) :
    r.length = 11 := by
  unfold matchPrefix11 at h
  dsimp only at h
  split at h
  · split at h
    · next hlen =>
      injection h with hv
      subst hv
      simp [List.length_take]
      omega
    · exact absurd h (by simp)
  · exact absurd h (by simp)

theorem matchPrefixMin5_length {pat s r} (h : matchPrefixMin5 pat s = some r) :
    5 ≤ r.length := by
  unfold matchPrefixMin5 at h
  dsimp only at h
  split at h
  · split at h
    · next hlen => injection h with hv; subst hv; exact hlen
    · exact absurd h (by simp)
  · exact absurd h (by simp)

theorem matchUser11_length {s r} (h : matchUser11 s = some r) : r.length = 11 := by
  unfold matchUser11 at h
  dsimp only at h
  split at h
  case isTrue =>
    split at h
    · exact absurd h (by simp)
    · split at h
      · split at h
        · exact absurd h (by simp)
        · split at h
          · split at h
            · next hlen =>
              injection h with hv
              subst hv
              simp [List.length_take]
              omega
            · exact absurd h (by simp)
          · exact absurd h (by simp)
      · exact absurd h (by simp)
  case isFalse => exact absurd h (by simp)

theorem tryAlts_elim (P : List Char → Prop)
    {m : List Char → List Char → Option (List Char)}
    (hm : ∀ p t r, m p t = some r → P r) :
    ∀ pats s r, tryAlts m pats s = some r → P r := by
  intro pats
  induction pats with
  | nil => intro s r h; exact absurd h (by simp [tryAlts])
  | cons p ps ih =>
    intro s r h
    unfold tryAlts at h
    cases hp : m p s with
    | some v => rw [hp] at h; injection h with hv; subst hv; exact hm p s v hp
    | none => rw [hp] at h; exact ih s r h

theorem searchOne_elim (P : List Char → Prop)
    {m : List Char → Option (List Char)}
    (hm : ∀ t r, m t = some r → P r) :
    ∀ s r, searchOne m s = some r → P r := by
  intro s
  induction s with
  | nil => intro r h; exact absurd h (by simp [searchOne])
  | cons c rest ih =>
    intro r h
    unfold searchOne at h
    cases hp : m (c :: rest) with
    | some v => rw [hp] at h; injection h with hv; subst hv; exact hm _ v hp
    | none => rw [hp] at h; exact ih r h

theorem orElse_elim {α : Type} (P : α → Prop) {a b : Option α}
    (ha : ∀ x, a = some x → P x) (hb : ∀ x, b = some x → P x) :
    ∀ x, (a <|> b) = some x → P x := by
  intro x h
  cases hc : a with
  | some v => rw [hc] at h; injection h with hv; subst hv; exact ha v hc
  | none => rw [hc] at h; exact hb x h

end ExtractLength

theorem extract_youtube_id_length {url id : String}
    (h : extract_youtube_id url = some id) : 5 ≤ id.length := by
  unfold extract_youtube_id at h
  split at h
  · exact absurd h (by simp)
  · split at h
    · exact absurd h (by simp)
    · dsimp only at h
      rw [Option.map_eq_some'] at h
      obtain ⟨r, hr, rfl⟩ := h
      have h5 : 5 ≤ r.length := by
        refine orElse_elim (fun t => 5 ≤ t.length) ?_ ?_ r hr
        · intro x hx
          refine searchOne_elim (fun t => 5 ≤ t.length) ?_ _ x hx
          intro t v hv
          refine tryAlts_elim (fun t => 5 ≤ t.length) ?_ _ t v hv
          intro p t2 v2 hv2
          have := matchPrefix11_length hv2
          omega
        · intro x hx
          refine orElse_elim (fun t => 5 ≤ t.length) ?_ ?_ x hx
          · intro x2 hx2
            refine searchOne_elim (fun t => 5 ≤ t.length) ?_ _ x2 hx2
            intro t v hv
            have := matchPrefix11_length hv
            omega
          · intro x2 hx2
            refine orElse_elim (fun t => 5 ≤ t.length) ?_ ?_ x2 hx2
            · intro x3 hx3
              refine searchOne_elim (fun t => 5 ≤ t.length) ?_ _ x3 hx3
              intro t v hv
              have := matchPrefix11_length hv
              omega
            · intro x3 hx3
              refine orElse_elim (fun t => 5 ≤ t.length) ?_ ?_ x3 hx3
              · intro x4 hx4
                refine searchOne_elim (fun t => 5 ≤ t.length) ?_ _ x4 hx4
                intro t v hv
                have := matchUser11_length hv
                omega
              · intro x4 hx4
                refine orElse_elim (fun t => 5 ≤ t.length) ?_ ?_ x4 hx4
                · intro x5 hx5
                  refine searchOne_elim (fun t => 5 ≤ t.length) ?_ _ x5 hx5
                  intro t v hv
                  exact matchPrefixMin5_length hv
                · intro x5 hx5
                  refine orElse_elim (fun t => 5 ≤ t.length) ?_ ?_ x5 hx5
                  · intro x6 hx6
                    refine searchOne_elim (fun t => 5 ≤ t.length) ?_ _ x6 hx6
                    intro t v hv
                    exact matchPrefixMin5_length hv
                  · intro x6 hx6
                    refine orElse_elim (fun t => 5 ≤ t.length) ?_ ?_ x6 hx6
                    · intro x7 hx7
                      split at hx7
                      · next hcond =>
                        injection hx7 with hv
                        subst hv
                        simp at hcond
                        exact hcond.2
                      · exact absurd hx7 (by simp)
                    · intro x7 hx7
                      refine searchOne_elim (fun t => 5 ≤ t.length) ?_ _ x7 hx7
                      intro t v hv
                      exact matchPrefixMin5_length hv
      exact h5

section MergerLemmas

theorem mergeUpd_startT (curr nxt : RawSeg) :
    (mergeUpd curr nxt).startT = curr.startT := rfl

theorem closeSeg_startT (c : RawSeg) : (closeSeg c).startT = c.startT := rfl

theorem mergeLoop_length (rest : List RawSeg) :
    ∀ curr, (mergeLoop rest curr).length ≤ rest.length + 1 := by
  induction rest with
  | nil => intro curr; simp [mergeLoop]
  | cons nxt rest ih =>
    intro curr
    unfold mergeLoop
    split
    · have := ih (mergeUpd curr nxt)
      simp only [List.length_cons]
      omega
    · have := ih nxt
      simp only [List.length_cons]
      omega

theorem insertByStart_length (x : RawSeg) (l : List RawSeg) :
    (insertByStart x l).length = l.length + 1 := by
  induction l with
  | nil => rfl
  | cons y ys ih =>
    unfold insertByStart
    split
    · simp [ih]
    · simp

theorem sortByStart_length (l : List RawSeg) :
    (sortByStart l).length = l.length := by
  induction l with
  | nil => rfl
  | cons x xs ih => simp [sortByStart, insertByStart_length, ih]

theorem merge_similar_segments_length (l : List RawSeg) :
    (merge_similar_segments l).length ≤ l.length := by
  unfold merge_similar_segments
  rcases h : sortByStart l with - | ⟨s, rest⟩
  · simp
  · dsimp only
    have h1 := mergeLoop_length rest s
    have h2 := sortByStart_length l
    rw [h] at h2
    simp only [List.length_cons] at h2
    omega

theorem mem_insertByStart {a x : RawSeg} {l : List RawSeg} :
    a ∈ insertByStart x l → a = x ∨ a ∈ l := by
  induction l with
  | nil => intro h; simp [insertByStart] at h; exact Or.inl h
  | cons y ys ih =>
    unfold insertByStart
    split
    · intro h
      rcases List.mem_cons.mp h with h | h
      · exact Or.inr (h ▸ List.mem_cons_self _ _)
      · rcases ih h with h | h
        · exact Or.inl h
        · exact Or.inr (List.mem_cons_of_mem _ h)
    · intro h
      rcases List.mem_cons.mp h with h | h
      · exact Or.inl h
      · exact Or.inr h

theorem insertByStart_pairwise (x : RawSeg) (l : List RawSeg)
    (h : l.Pairwise fun a b => a.startT ≤ b.startT) :
    (insertByStart x l).Pairwise fun a b => a.startT ≤ b.startT := by
  induction l with
  | nil => simp [insertByStart]
  | cons y ys ih =>
    rw [List.pairwise_cons] at h
    obtain ⟨hy, hys⟩ := h
    unfold insertByStart
    split
    · next hlt =>
      rw [List.pairwise_cons]
      refine ⟨?_, ih hys⟩
      intro a ha
      rcases mem_insertByStart ha with rfl | ha
      · omega
      · exact hy a ha
    · next hlt =>
      rw [List.pairwise_cons]
      constructor
      · intro a ha
        rcases List.mem_cons.mp ha with rfl | ha
        · omega
        · have := hy a ha
          omega
      · rw [List.pairwise_cons]
        exact ⟨hy, hys⟩

theorem sortByStart_pairwise (l : List RawSeg) :
    (sortByStart l).Pairwise fun a b => a.startT ≤ b.startT := by
  induction l with
  | nil => simp [sortByStart]
  | cons x xs ih => exact insertByStart_pairwise x _ ih

theorem mergeLoop_start_mem (rest : List RawSeg) :
    ∀ curr, ∀ o ∈ mergeLoop rest curr,
      o.startT = curr.startT ∨ ∃ x ∈ rest, o.startT = x.startT := by
  induction rest with
  | nil =>
    intro curr o ho
    simp [mergeLoop] at ho
    exact Or.inl (ho ▸ rfl)
  | cons nxt rest ih =>
    intro curr o ho
    unfold mergeLoop at ho
    split at ho
    · rcases ih (mergeUpd curr nxt) o ho with h | ⟨x, hx, hxe⟩
      · exact Or.inl (h.trans (mergeUpd_startT curr nxt))
      · exact Or.inr ⟨x, List.mem_cons_of_mem _ hx, hxe⟩
    · rcases List.mem_cons.mp ho with rfl | ho
      · exact Or.inl (closeSeg_startT curr)
      · rcases ih nxt o ho with h | ⟨x, hx, hxe⟩
        · exact Or.inr ⟨nxt, List.mem_cons_self _ _, h⟩
        · exact Or.inr ⟨x, List.mem_cons_of_mem _ hx, hxe⟩

theorem mergeLoop_pairwise (rest : List RawSeg) :
    ∀ curr, (∀ x ∈ rest, curr.startT ≤ x.startT) →
      (rest.Pairwise fun a b => a.startT ≤ b.startT) →
      (mergeLoop rest curr).Pairwise fun a b : Seg => a.startT ≤ b.startT := by
  induction rest with
  | nil => intro curr _ _; simp [mergeLoop]
  | cons nxt rest ih =>
    intro curr hall hs
    rw [List.pairwise_cons] at hs
    obtain ⟨hnxt, hs'⟩ := hs
    unfold mergeLoop
    split
    · refine ih (mergeUpd curr nxt) ?_ hs'
      intro x hx
      rw [mergeUpd_startT]
      exact hall x (List.mem_cons_of_mem _ hx)
    · rw [List.pairwise_cons]
      constructor
      · intro o ho
        rw [closeSeg_startT]
        rcases mergeLoop_start_mem rest nxt o ho with h | ⟨x, hx, hxe⟩
        · rw [h]
          exact hall nxt (List.mem_cons_self _ _)
        · rw [hxe]
          exact hall x (List.mem_cons_of_mem _ hx)
      · exact ih nxt hnxt hs'

theorem merge_similar_segments_pairwise (l : List RawSeg) :
    (merge_similar_segments l).Pairwise fun a b : Seg => a.startT ≤ b.startT := by
  unfold merge_similar_segments
  rcases h : sortByStart l with - | ⟨s, rest⟩
  · simp
  · have hp := sortByStart_pairwise l
    rw [h, List.pairwise_cons] at hp
    exact mergeLoop_pairwise rest s hp.1 hp.2

end MergerLemmas

section BoundaryLemmas

theorem getFrame_fst (env : ScanEnv) (n : Nat) (lt : String) :
    (getFrame env n lt).1 = frameId env n := by
  unfold getFrame
  cases frameId env n <;> rfl

theorem getFrameAt_fst (env : ScanEnv) (m : Int) (lt : String) :
    (getFrameAt env m lt).1 = frameIdAt env m := by
  unfold getFrameAt frameIdAt
  split
  · rfl
  · exact getFrame_fst env m.toNat lt

theorem fesBin_fst_no_match (env : ScanEnv) (ytid : String) :
    ∀ (fuel : Nat) (start stop res : Int) (lt : String),
      (∀ m : Int, start ≤ m → m ≤ stop → probeAt env ytid m = false) →
      (fesBin env ytid fuel start stop res lt).1 = res := by
  intro fuel
  induction fuel with
  | zero => intro start stop res lt _; rfl
  | succ fuel ih =>
    intro start stop res lt hno
    unfold fesBin
    dsimp only
    split
    · next hle =>
      have hp : is_same_youtube_id (getFrameAt env ((start + stop) / 2) lt).1
          (some ytid) = false := by
        rw [getFrameAt_fst]
        exact hno _ (by omega) (by omega)
      rw [hp]
      simp only [Bool.false_eq_true, if_false]
      refine ih _ _ _ _ ?_
      intro m h1 h2
      exact hno m (by omega) (by omega)
    · rfl

/-- The degenerate-bracket / all-probes-fail fallback of `find_exact_start`:
if no sample in the search window carries a matching ID (vacuously, if the
bracket is empty), the originating sample is returned. -/
theorem find_exact_start_fst_no_match (env : ScanEnv) (i : Nat) (ytid : String)
    (lastEnd : Int) (lt : String)
    (hno : ∀ m : Int, max (lastEnd + 1) ((i : Int) - 30) ≤ m → m ≤ (i : Int) →
      probeAt env ytid m = false) :
    (find_exact_start env i ytid lastEnd lt).1 = i := by
  unfold find_exact_start
  dsimp only
  rw [fesBin_fst_no_match env ytid _ _ _ _ _ hno]
  omega

/-- If the probe at the start frame itself fails (and the start frame is in
range), `find_segment_end` falls back to the start frame. -/
theorem find_segment_end_fst_fail (env : ScanEnv) (s : Nat) (ytid : String)
    (total : Nat) (lt : String) (hs : s < total)
    (hfail : probeAtN env ytid s = false) :
    (find_segment_end env s ytid total lt).1 = s := by
  unfold find_segment_end
  have hfail2 : is_same_youtube_id (getFrame env s lt).1 (some ytid) = false := by
    rw [getFrame_fst]
    exact hfail
  have h1 : fseScan env ytid total (total + 1) s s lt
      = (s, s, (getFrame env s lt).2) := by
    unfold fseScan
    rw [if_pos hs]
    dsimp only
    rw [hfail2]
    simp
  rw [h1]
  dsimp only
  rw [if_neg (by omega)]
  have hfuel : (((s : Nat) : Int) - ((s : Nat) : Int) + 2).toNat = 2 := by omega
  rw [hfuel]
  have hmid : (((s : Nat) : Int) + ((s : Nat) : Int)) / 2 = ((s : Nat) : Int) := by omega
  have hfail3 : is_same_youtube_id
      (getFrameAt env ((((s : Nat) : Int) + ((s : Nat) : Int)) / 2) (getFrame env s lt).2).1
      (some ytid) = false := by
    rw [getFrameAt_fst, hmid]
    unfold frameIdAt
    rw [if_neg (by omega)]
    have : ((s : Int)).toNat = s := by omega
    rw [this]
    exact hfail
  unfold fseBin
  dsimp only
  rw [if_pos (by omega), hfail3]
  simp only [Bool.false_eq_true, if_false]
  unfold fseBin
  dsimp only
  rw [if_neg (by omega)]
  omega

end BoundaryLemmas

section PureEquiv

theorem getFrame_titleNone (env : ScanEnv) (h : ∀ n, env.titleObs n = none)
    (n : Nat) (lt : String) : getFrame env n lt = (frameId env n, lt) := by
  unfold getFrame
  cases hf : frameId env n
  · rfl
  · unfold updateTitle
    rw [h n]

theorem getFrameAt_titleNone (env : ScanEnv) (h : ∀ n, env.titleObs n = none)
    (m : Int) (lt : String) : getFrameAt env m lt = (frameIdAt env m, lt) := by
  unfold getFrameAt frameIdAt
  split
  · rfl
  · exact getFrame_titleNone env h _ lt

theorem fesBin_titleNone (env : ScanEnv) (ytid : String)
    (h : ∀ n, env.titleObs n = none) :
    ∀ (fuel : Nat) (start stop res : Int) (lt : String),
      fesBin env ytid fuel start stop res lt
        = (fesBinP (probeAt env ytid) fuel start stop res, lt) := by
  intro fuel
  induction fuel with
  | zero => intros; rfl
  | succ fuel ih =>
    intro start stop res lt
    unfold fesBin fesBinP
    dsimp only
    by_cases hle : start ≤ stop
    · rw [if_pos hle, if_pos hle, getFrameAt_titleNone env h]
      dsimp only
      by_cases hp : probeAt env ytid ((start + stop) / 2) = true
      · have hp2 : is_same_youtube_id (frameIdAt env ((start + stop) / 2)) (some ytid) = true := hp
        rw [hp2, hp]
        simp only [if_true]
        exact ih _ _ _ _
      · have hp' : probeAt env ytid ((start + stop) / 2) = false := by
          revert hp; cases probeAt env ytid ((start + stop) / 2) <;> simp
        have hp2 : is_same_youtube_id (frameIdAt env ((start + stop) / 2)) (some ytid) = false := hp'
        rw [hp2, hp']
        simp only [Bool.false_eq_true, if_false]
        exact ih _ _ _ _
    · rw [if_neg hle, if_neg hle]

theorem fseBin_titleNone (env : ScanEnv) (ytid : String)
    (h : ∀ n, env.titleObs n = none) :
    ∀ (fuel : Nat) (start stop res : Int) (lt : String),
      fseBin env ytid fuel start stop res lt
        = (fseBinP (probeAt env ytid) fuel start stop res, lt) := by
  intro fuel
  induction fuel with
  | zero => intros; rfl
  | succ fuel ih =>
    intro start stop res lt
    unfold fseBin fseBinP
    dsimp only
    by_cases hle : start ≤ stop
    · rw [if_pos hle, if_pos hle, getFrameAt_titleNone env h]
      dsimp only
      by_cases hp : probeAt env ytid ((start + stop) / 2) = true
      · have hp2 : is_same_youtube_id (frameIdAt env ((start + stop) / 2)) (some ytid) = true := hp
        rw [hp2, hp]
        simp only [if_true]
        exact ih _ _ _ _
      · have hp' : probeAt env ytid ((start + stop) / 2) = false := by
          revert hp; cases probeAt env ytid ((start + stop) / 2) <;> simp
        have hp2 : is_same_youtube_id (frameIdAt env ((start + stop) / 2)) (some ytid) = false := hp'
        rw [hp2, hp']
        simp only [Bool.false_eq_true, if_false]
        exact ih _ _ _ _
    · rw [if_neg hle, if_neg hle]

theorem fseScan_titleNone (env : ScanEnv) (ytid : String) (total : Nat)
    (h : ∀ n, env.titleObs n = none) :
    ∀ (fuel current last : Nat) (lt : String),
      fseScan env ytid total fuel current last lt
        = ((fseScanP (probeAtN env ytid) total fuel current last).1,
           (fseScanP (probeAtN env ytid) total fuel current last).2, lt) := by
  intro fuel
  induction fuel with
  | zero => intros; rfl
  | succ fuel ih =>
    intro current last lt
    unfold fseScan fseScanP
    dsimp only
    by_cases hlt : current < total
    · rw [if_pos hlt, if_pos hlt, getFrame_titleNone env h]
      dsimp only
      by_cases hp : probeAtN env ytid current = true
      · have hp2 : is_same_youtube_id (frameId env current) (some ytid) = true := hp
        rw [hp2, hp]
        simp only [if_true]
        exact ih _ _ _
      · have hp' : probeAtN env ytid current = false := by
          revert hp; cases probeAtN env ytid current <;> simp
        have hp2 : is_same_youtube_id (frameId env current) (some ytid) = false := hp'
        rw [hp2, hp']
        simp only [Bool.false_eq_true, if_false]
    · rw [if_neg hlt, if_neg hlt]

theorem find_exact_start_titleNone (env : ScanEnv)
    (h : ∀ n, env.titleObs n = none) (i : Nat) (ytid : String)
    (lastEnd : Int) (lt : String) :
    (find_exact_start env i ytid lastEnd lt).1
      = find_exact_start_P (probeAt env ytid) i lastEnd := by
  unfold find_exact_start find_exact_start_P
  dsimp only
  rw [fesBin_titleNone env ytid h]

theorem find_segment_end_titleNone (env : ScanEnv)
    (h : ∀ n, env.titleObs n = none) (s : Nat) (ytid : String)
    (total : Nat) (lt : String) :
    (find_segment_end env s ytid total lt).1
      = find_segment_end_P (probeAtN env ytid) (probeAt env ytid) s total := by
  unfold find_segment_end find_segment_end_P
  dsimp only
  rw [fseScan_titleNone env ytid total h]
  dsimp only
  by_cases hc : total ≤ (fseScanP (probeAtN env ytid) total (total + 1) s s).1
  · rw [if_pos hc, if_pos hc]
  · rw [if_neg hc, if_neg hc]
    rw [fseBin_titleNone env ytid h]

end PureEquiv

section AbcdeEnv

theorem frameId_abcdeEnv (n : Nat) :
    frameId abcdeEnv n = if 10 ≤ n ∧ n ≤ 40 then some "ABCDE12345" else none := by
  unfold frameId abcdeEnv
  dsimp only
  by_cases h : 10 ≤ n ∧ n ≤ 40
  · rw [if_pos h, if_pos h]
    decide
  · rw [if_neg h, if_neg h]
    decide

theorem probeAtN_abcdeEnv (n : Nat) :
    probeAtN abcdeEnv "ABCDE12345" n = decide (10 ≤ n ∧ n ≤ 40) := by
  unfold probeAtN
  rw [frameId_abcdeEnv]
  by_cases h : 10 ≤ n ∧ n ≤ 40
  · rw [if_pos h]
    simp [h]
    decide
  · rw [if_neg h]
    simp [h]
    decide

theorem probeAt_envNone (ytid : String) (m : Int) :
    probeAt envNone ytid m = false := by
  unfold probeAt frameIdAt
  split
  · rfl
  · unfold frameId envNone
    dsimp only
    have h : extract_youtube_id "None" = none := by decide
    rw [h]
    rfl

theorem probeAtN_envNone (ytid : String) (n : Nat) :
    probeAtN envNone ytid n = false := by
  unfold probeAtN frameId envNone
  dsimp only
  have h : extract_youtube_id "None" = none := by decide
  rw [h]
  rfl

theorem fseScanP_step_true (p : Nat → Bool) (total fuel c l : Nat)
    (h : c < total) (hp : p c = true) :
    fseScanP p total (fuel + 1) c l = fseScanP p total fuel (c + FRAME_JUMP) c := by
  conv_lhs => rw [fseScanP]
  rw [if_pos h, hp]
  simp

theorem fseScanP_step_false (p : Nat → Bool) (total fuel c l : Nat)
    (h : c < total) (hp : p c = false) :
    fseScanP p total (fuel + 1) c l = (c, l) := by
  conv_lhs => rw [fseScanP]
  rw [if_pos h, hp]
  simp

/-- On the synthetic sequence, the coarse forward scan from sample 10 probes
10, 20, 30, 40 (matches) and 50 (no match), for any recording of at least 51
samples. -/
theorem fseScanP_abcde (total : Nat) (h : 51 ≤ total) :
    fseScanP (probeAtN abcdeEnv "ABCDE12345") total (total + 1) 10 10 = (50, 40) := by
  obtain ⟨k, rfl⟩ : ∃ k, total = k + 51 := ⟨total - 51, by omega⟩
  rw [fseScanP_step_true _ _ _ _ _ (by have hF : FRAME_JUMP = 10 := rfl; omega)
    (by rw [probeAtN_abcdeEnv]; decide)]
  rw [show k + 51 = (k + 50) + 1 from rfl]
  rw [fseScanP_step_true _ _ _ _ _ (by have hF : FRAME_JUMP = 10 := rfl; omega)
    (by rw [probeAtN_abcdeEnv]; decide)]
  rw [show k + 50 = (k + 49) + 1 from rfl]
  rw [fseScanP_step_true _ _ _ _ _ (by have hF : FRAME_JUMP = 10 := rfl; omega)
    (by rw [probeAtN_abcdeEnv]; decide)]
  rw [show k + 49 = (k + 48) + 1 from rfl]
  rw [fseScanP_step_true _ _ _ _ _ (by have hF : FRAME_JUMP = 10 := rfl; omega)
    (by rw [probeAtN_abcdeEnv]; decide)]
  rw [show k + 48 = (k + 47) + 1 from rfl]
  rw [fseScanP_step_false _ _ _ _ _ (by have hF : FRAME_JUMP = 10 := rfl; omega)
    (by rw [probeAtN_abcdeEnv]; decide)]
  decide

theorem find_segment_end_P_abcde (total : Nat) (h : 51 ≤ total) :
    find_segment_end_P (probeAtN abcdeEnv "ABCDE12345")
      (probeAt abcdeEnv "ABCDE12345") 10 total = 40 := by
  unfold find_segment_end_P
  rw [fseScanP_abcde total h]
  dsimp only
  have hc : ¬ (total ≤ 50) := by omega
  rw [if_neg hc]
  decide

theorem bufferedEndOf_abcde (total : Nat) (h : 51 ≤ total) (lt : String) :
    (bufferedEndOf abcdeEnv "ABCDE12345" total 40 lt).1 = 45 := by
  unfold bufferedEndOf
  dsimp only
  rw [if_pos (show 40 + 1 < total by omega)]
  rw [getFrame_titleNone abcdeEnv (fun _ => rfl)]
  rw [frameId_abcdeEnv]
  have hn : ¬ (10 ≤ 40 + 1 ∧ 40 + 1 ≤ 40) := by omega
  rw [if_neg hn]
  simp only [Option.isSome_none, Bool.false_and, Bool.false_eq_true, if_false]
  omega

end AbcdeEnv

section ScanLoopInv

theorem scanLoop_inv (env : ScanEnv) (total : Nat) :
    ∀ (fuel fi : Nat) (lastEnd : Int) (lt : String) (acc : List RawSeg),
      ∀ seg ∈ scanLoop env total fuel fi lastEnd lt acc,
        seg ∈ acc ∨
          (2 ≤ seg.endT - seg.startT ∧
           seg.startT = (seg.startF : Int) * INTERVAL_SECONDS ∧
           seg.endT = (seg.endF : Int) * INTERVAL_SECONDS) := by
  intro fuel
  induction fuel with
  | zero => intro fi lastEnd lt acc seg hseg; exact Or.inl hseg
  | succ fuel ih =>
    intro fi lastEnd lt acc seg hseg
    rw [scanLoop] at hseg
    split at hseg
    · dsimp only at hseg
      rcases hgot : (getFrame env fi lt).1 with - | ytid
      · rw [hgot] at hseg
        dsimp only at hseg
        exact ih _ _ _ _ seg hseg
      · rw [hgot] at hseg
        dsimp only at hseg
        split at hseg
        · exact ih _ _ _ _ seg hseg
        · rcases ih _ _ _ _ seg hseg with hmem | hP
          · split at hmem
            · next hdur =>
              rw [List.mem_append] at hmem
              rcases hmem with hmem | hmem
              · exact Or.inl hmem
              · rw [List.mem_singleton] at hmem
                subst hmem
                exact Or.inr ⟨hdur, rfl, rfl⟩
            · exact Or.inl hmem
          · exact Or.inr hP
    · exact Or.inl hseg

end ScanLoopInv

section CacheLemmas

theorem lookupAssoc_insertAssoc_ne {κ β : Type} [DecidableEq κ]
    (k k2 : κ) (v : β) (l : List (κ × β)) (h : k ≠ k2) :
    lookupAssoc k2 (insertAssoc k v l) = lookupAssoc k2 l := by
  induction l with
  | nil => simp [insertAssoc, lookupAssoc, h, Ne.symm h]
  | cons p rest ih =>
    obtain ⟨k3, v3⟩ := p
    unfold insertAssoc
    split
    · next hk =>
      subst hk
      unfold lookupAssoc
      rw [if_neg (Ne.symm h), if_neg (Ne.symm h)]
    · unfold lookupAssoc
      split
      · rfl
      · exact ih

end CacheLemmas

theorem probeAt_abcdeEnv (m : Int) :
    probeAt abcdeEnv "ABCDE12345" m = decide (10 ≤ m ∧ m ≤ 40) := by
  unfold probeAt frameIdAt
  by_cases hm : m < 0
  · rw [if_pos hm]
    have h2 : ¬ (10 ≤ m ∧ m ≤ 40) := by omega
    simp [h2, is_same_youtube_id]
  · rw [if_neg hm]
    rw [frameId_abcdeEnv]
    by_cases h : 10 ≤ m.toNat ∧ m.toNat ≤ 40
    · rw [if_pos h]
      have h2 : 10 ≤ m ∧ m ≤ 40 := by omega
      rw [decide_eq_true_eq.mpr h2]
      decide
    · rw [if_neg h]
      have h2 : ¬ (10 ≤ m ∧ m ≤ 40) := by omega
      simp [h2, is_same_youtube_id]

/-! ## Claim theorems -/

/-- Claim C1, counterexample: the merger does not guarantee disjointness.
Two overlapping raw segments with dissimilar IDs ("abcdefgggg" vs "qqqqq",
similarity 0) and dissimilar titles ("aaaa" vs "cccc", similarity 0) are both
emitted unmerged, and both survive the minimum-duration filter; the second
segment starts (10s) before the first ends (100s), refuting
`start_sec(i+1) > end_sec(i)`. -/
theorem c1_counterexample :
    filter_min_duration (merge_similar_segments
        [⟨"abcdefgggg", 0, 100, "aaaa", 0, 33⟩, ⟨"qqqqq", 10, 110, "cccc", 3, 36⟩])
      = [⟨"abcdefgggg", 0, 100, "aaaa"⟩, ⟨"qqqqq", 10, 110, "cccc"⟩]
    ∧ (10 : Int) ≤ 100 :=
  ⟨by decide, by decide⟩

/-- Claim C1 (amended): for every input list of raw segments, the canonical
list produced by the merger followed by the minimum-duration filter is sorted
by `start_sec` (nondecreasing), every output segment satisfies
`start_sec < end_sec`, and the output count is at most the input count.
Adjacent canonical segments need NOT be disjoint (see the counterexample):
the merger only concatenates non-merging neighbours, it never separates
overlapping segments whose contents fail to match. -/
theorem c1_amended (raw : List RawSeg) :
    (filter_min_duration (merge_similar_segments raw)).Pairwise
        (fun a b : Seg => a.startT ≤ b.startT)
    ∧ (∀ s ∈ filter_min_duration (merge_similar_segments raw), s.startT < s.endT)
    ∧ (filter_min_duration (merge_similar_segments raw)).length ≤ raw.length := by
  refine ⟨?_, ?_, ?_⟩
  · exact (merge_similar_segments_pairwise raw).filter _
  · intro s hs
    unfold filter_min_duration at hs
    rw [List.mem_filter] at hs
    have hd := of_decide_eq_true hs.2
    have hm : MIN_SEGMENT_DURATION = 5 := rfl
    omega
  · calc (filter_min_duration (merge_similar_segments raw)).length
        ≤ (merge_similar_segments raw).length := List.length_filter_le _ _
      _ ≤ raw.length := merge_similar_segments_length raw

/-- Claim C2, counterexample: on the synthetic sequence with the identity on
samples 10..40, a recording of exactly 50 samples makes the coarse forward
scan (10, 20, 30, 40, next jump 50) run off the end of the recording without
probing a non-matching sample, so `find_segment_end` returns the last sample
49, not 40 — and the buffered reported end 49 exceeds 40 by more than the
5-sample buffer. -/
theorem c2_counterexample :
    (find_segment_end abcdeEnv 10 "ABCDE12345" 50 "").1 = 49
    ∧ (49 : Nat) ≠ 40
    ∧ (bufferedEndOf abcdeEnv "ABCDE12345" 50 49 "").1 = 49
    ∧ ¬ ((49 : Nat) ≤ 40 + 5) :=
  ⟨by decide, by decide, by decide, by decide⟩

/-- Claim C2 (amended): on the synthetic sequence (identity "ABCDE12345"
extractable at exactly samples 10..40, no prior segment), PROVIDED the
recording has at least 51 samples — so that the coarse forward scan can probe
one sample beyond the run — a scan first detecting the identity at any sample
`i` in [10,40] has `find_exact_start` return 10, `find_segment_end` return
40, and the buffered reported end is 45 = 40 + the 5-sample buffer (not
capped, since the last sample is at least 50). -/
theorem c2_amended (total : Nat) (ht : 51 ≤ total) (i : Nat)
    (h10 : 10 ≤ i) (h40 : i ≤ 40) (lt : String) :
    (find_exact_start abcdeEnv i "ABCDE12345" (-1) lt).1 = 10
    ∧ (find_segment_end abcdeEnv 10 "ABCDE12345" total lt).1 = 40
    ∧ (bufferedEndOf abcdeEnv "ABCDE12345" total 40 lt).1 = 45 := by
  refine ⟨?_, ?_, ?_⟩
  · rw [find_exact_start_titleNone abcdeEnv (fun _ => rfl)]
    rw [show probeAt abcdeEnv "ABCDE12345" = fun m => decide (10 ≤ m ∧ m ≤ 40)
      from funext probeAt_abcdeEnv]
    interval_cases i <;> decide
  · rw [find_segment_end_titleNone abcdeEnv (fun _ => rfl)]
    exact find_segment_end_P_abcde total ht
  · exact bufferedEndOf_abcde total ht lt

/-- Claim C2 witness: the amended claim at `total = 60`, `i = 25`. -/
theorem c2_witness :
    (find_exact_start abcdeEnv 25 "ABCDE12345" (-1) "").1 = 10
    ∧ (find_segment_end abcdeEnv 10 "ABCDE12345" 60 "").1 = 40
    ∧ (bufferedEndOf abcdeEnv "ABCDE12345" 60 40 "").1 = 45 :=
  c2_amended 60 (by decide) 25 (by decide) (by decide) ""

/-- Claim C3, counterexample: merging a contained segment (same exact ID, so
the merge fires) sets the accumulator's end to the NEXT segment's end 20, not
`max(100, 20) = 100`; and the longer next title "bbbb@bbbb" is NOT taken
because it contains "@", which fails the merger's character filter — the
title stays "aaaa" although it is strictly shorter. -/
theorem c3_counterexample :
    merge_similar_segments
        [⟨"abcde", 0, 100, "aaaa", 0, 33⟩, ⟨"abcde", 10, 20, "bbbb@bbbb", 3, 6⟩]
      = [⟨"abcde", 0, 20, "aaaa"⟩]
    ∧ (20 : Int) ≠ max 100 20
    ∧ ("aaaa" : String).length < ("bbbb@bbbb" : String).length :=
  ⟨by decide, by decide, by decide⟩

/-- Claim C3 (amended): when the merger merges a next segment into the
current accumulator, the accumulator's end becomes `next.end` (which can be
smaller than `current.end`); the identity becomes the longer of the two
strings with ties kept at the current one; and the title is replaced by the
next title only when it is non-empty, strictly longer, and free of characters
outside word characters, whitespace and basic punctuation — otherwise the
current title is kept even when the next one is longer. -/
theorem c3_amended (a b : RawSeg) (h1 : a.startT ≤ b.startT)
    (h2 : mergeShould a b = true) :
    merge_similar_segments [a, b]
      = [⟨if a.vid.length ≥ b.vid.length then a.vid else b.vid,
          a.startT, b.endT,
          if b.title ≠ "" && a.title.length < b.title.length
              && !hasBadTitleChar b.title then b.title else a.title⟩] := by
  unfold merge_similar_segments
  have hsort : sortByStart [a, b] = [a, b] := by
    simp only [sortByStart, insertByStart]
    rw [if_neg (by omega)]
  rw [hsort]
  unfold mergeLoop
  rw [h2]
  simp only [if_true]
  rfl

/-- Claim C3 witness: the amended claim at a concrete mergeable pair. -/
theorem c3_witness :
    (⟨"abcde", 0, 100, "aaaa", 0, 33⟩ : RawSeg).startT
        ≤ (⟨"abcde", 10, 20, "bbbb@bbbb", 3, 6⟩ : RawSeg).startT
    ∧ mergeShould ⟨"abcde", 0, 100, "aaaa", 0, 33⟩
        ⟨"abcde", 10, 20, "bbbb@bbbb", 3, 6⟩ = true
    ∧ merge_similar_segments
        [⟨"abcde", 0, 100, "aaaa", 0, 33⟩, ⟨"abcde", 10, 20, "bbbb@bbbb", 3, 6⟩]
      = [⟨"abcde", 0, 20, "aaaa"⟩] := by
  refine ⟨by decide, by decide, ?_⟩
  rw [c3_amended _ _ (by decide) (by decide)]
  decide

/-- Claim C4, counterexample: the merger is not idempotent.  On the first
pass, segment 2 ("qqqqq") merges with segment 3 ("abcdeqqqqqq", fuzzy
similarity 10/16 above the 0.4 threshold) and the merged segment takes the
longer ID "abcdeqqqqqq"; segment 1 ("abcdefgggg") matches neither.  On a
second pass over the output, segment 1 now merges with the combined segment
because their IDs share the 5-character prefix "abcde" — so the second run
produces a different (shorter) list. -/
theorem c4_counterexample :
    merge_similar_segments ((merge_similar_segments
        [⟨"abcdefgggg", 0, 10, "aaaa", 0, 3⟩, ⟨"qqqqq", 20, 30, "cccc", 6, 10⟩,
         ⟨"abcdeqqqqqq", 31, 40, "eeee", 11, 13⟩]).map segToRaw)
      ≠ merge_similar_segments
        [⟨"abcdefgggg", 0, 10, "aaaa", 0, 3⟩, ⟨"qqqqq", 20, 30, "cccc", 6, 10⟩,
         ⟨"abcdeqqqqqq", 31, 40, "eeee", 11, 13⟩] := by
  decide

/-- Claim C4 (amended): re-running the merger on its own output is NOT the
identity (see the counterexample — a second pass can merge further, because
merged segments carry new, longer identities that can match neighbours the
original constituents did not).  What does hold is that the second pass never
increases the segment count. -/
theorem c4_amended (raw : List RawSeg) :
    (merge_similar_segments ((merge_similar_segments raw).map segToRaw)).length
      ≤ (merge_similar_segments raw).length := by
  have h := merge_similar_segments_length ((merge_similar_segments raw).map segToRaw)
  rw [List.length_map] at h
  exact h

/-- Claim C5, counterexample: the extractor does not reject pure-digit
tokens — `watch?v=12345678901` yields the all-digit identity "12345678901"
with no alphabetic character — and it can even return the literal keyword
"youtube" (from `watch?v=youtube`); only the whole inputs "youtube" and
"youtube.com" are rejected. -/
theorem c5_counterexample :
    extract_youtube_id "youtube.com/watch?v=12345678901" = some "12345678901"
    ∧ ("12345678901" : String).data.all (fun c => !c.isAlpha) = true
    ∧ extract_youtube_id "youtube.com/watch?v=youtube" = some "youtube" :=
  ⟨by decide, by decide, by decide⟩

/-- Claim C5 (amended): every non-`None` result of the identity extractor has
length at least 5 (every pattern requires 11 or at least 5 identity
characters).  The extractor does NOT require an alphabetic character and does
NOT reject the keyword "youtube" as a result — it only rejects the whole
inputs "youtube" and "youtube.com". -/
theorem c5_amended (url id : String) (h : extract_youtube_id url = some id) :
    5 ≤ id.length :=
  extract_youtube_id_length h

/-- Claim C5 witness: the amended claim at a concrete input. -/
theorem c5_witness :
    extract_youtube_id "abcdefghijk" = some "abcdefghijk"
    ∧ 5 ≤ ("abcdefghijk" : String).length :=
  ⟨by decide, c5_amended "abcdefghijk" "abcdefghijk" (by decide)⟩

/-- Claim C6, counterexample: when BOTH titles are the "No Title" sentinel,
`is_similar_title` falls through the one-sided sentinel guards and returns
true at the exact-match check — the claim requires false whenever either
input is the sentinel, also when both are. -/
theorem c6_counterexample :
    is_similar_title "No Title" "No Title" = true := by decide

/-- Claim C6 (amended): `is_similar_title` returns false whenever either
input is empty, and whenever one input is the "No Title" sentinel and the
other is not; when both inputs are the sentinel it returns TRUE (exact
match). -/
theorem c6_amended (t1 t2 : String)
    (h : t1 = "" ∨ t2 = "" ∨ (t1 = "No Title" ∧ t2 ≠ "No Title")
         ∨ (t2 = "No Title" ∧ t1 ≠ "No Title")) :
    is_similar_title t1 t2 = false := by
  unfold is_similar_title
  rcases h with h | h | ⟨h1, h2⟩ | ⟨h1, h2⟩
  · subst h; simp
  · subst h; simp
  · subst h1
    by_cases he : t2 = ""
    · subst he; simp
    · simp [he, h2]
  · subst h1
    by_cases he : t1 = ""
    · subst he; simp
    · simp [he, h2]

/-- Claim C6 witness: the amended claim at a concrete sentinel pair. -/
theorem c6_witness :
    (("No Title" : String) = "" ∨ ("x" : String) = ""
      ∨ (("No Title" : String) = "No Title" ∧ ("x" : String) ≠ "No Title")
      ∨ (("x" : String) = "No Title" ∧ ("No Title" : String) ≠ "No Title"))
    ∧ is_similar_title "No Title" "x" = false :=
  ⟨by decide, c6_amended "No Title" "x" (by decide)⟩

/-- Claim C7 (confirmed): the boundary locator is total by construction (the
embedding returns a sample for every input), and the fallback clause holds:
if no probe in the `find_exact_start` search window
`[max(last_segment_end+1, i-30), i]` succeeds — in particular when the
bracket is degenerate (`start > end`) and no probe runs at all — the
originating sample `i` is returned; and if the probe at the start frame fails
in `find_segment_end`, the originating start frame is returned. -/
theorem c7_locator_fallback (env : ScanEnv) (i : Nat) (ytid : String)
    (lastEnd : Int) (lt : String) (s total : Nat) (lt2 : String)
    (hno : ∀ m : Int, max (lastEnd + 1) ((i : Int) - 30) ≤ m → m ≤ (i : Int) →
      probeAt env ytid m = false)
    (hs : s < total) (hfail : probeAtN env ytid s = false) :
    (find_exact_start env i ytid lastEnd lt).1 = i
    ∧ (find_segment_end env s ytid total lt2).1 = s :=
  ⟨find_exact_start_fst_no_match env i ytid lastEnd lt hno,
   find_segment_end_fst_fail env s ytid total lt2 hs hfail⟩

/-- Claim C7 witness: on a recording with no identity anywhere, both
locators fall back to their originating samples. -/
theorem c7_witness :
    (find_exact_start envNone 7 "abcde" (-1) "").1 = 7
    ∧ (find_segment_end envNone 3 "abcde" 9 "").1 = 3 :=
  c7_locator_fallback envNone 7 "abcde" (-1) "" 3 9 ""
    (fun m _ _ => probeAt_envNone "abcde" m) (by decide)
    (probeAtN_envNone "abcde" 3)

/-- Claim C8 (confirmed): a cache hit returns the stored value with no OCR
call, no flush and no change to the cache, in both `main.py`'s
`get_youtube_url_from_frame` (string values keyed by `str(index)`) and
`main_upgraded.py`'s `detect_segments` cache step (text pairs keyed by the
integer index); moreover the stored entry survives a step at ANY index `j`
(miss steps only insert absent keys), so entries are write-once within a
run. -/
theorem c8_cache_hit (env : OcrEnv) (st : CacheState) (idx : Nat) (v : String)
    (hfe : env.frameExists idx = true)
    (h : lookupAssoc (toString idx) st.entries = some v)
    (j : Nat) (u1 u2 : Nat → String) (st2 : UpCacheState) (p : String × String)
    (h2 : lookupAssoc idx st2.entries = some p) :
    get_youtube_url_from_frame env idx st = (v, st)
    ∧ detect_cache_step u1 u2 idx st2 = (p, st2)
    ∧ lookupAssoc (toString idx)
        ((get_youtube_url_from_frame env j st).2).entries = some v := by
  refine ⟨?_, ?_, ?_⟩
  · unfold get_youtube_url_from_frame
    rw [hfe]
    simp only [Bool.not_true, Bool.false_eq_true, if_false]
    rw [h]
  · unfold detect_cache_step
    rw [h2]
  · unfold get_youtube_url_from_frame
    by_cases hj : env.frameExists j = true
    · rw [hj]
      simp only [Bool.not_true, Bool.false_eq_true, if_false]
      rcases hlj : lookupAssoc (toString j) st.entries with - | w
      · dsimp only
        by_cases heq : toString j = toString idx
        · rw [heq] at hlj
          rw [hlj] at h
          exact absurd h (by simp)
        · rw [lookupAssoc_insertAssoc_ne _ _ _ _ heq]
          exact h
      · exact h
    · have hj2 : env.frameExists j = false := by
        revert hj; cases env.frameExists j <;> simp
      rw [hj2]
      simp only [Bool.not_false, if_true]
      exact h

/-- Claim C8 witness: a cache populated for indices 0, 1, 2 and queried for
index 1 returns the stored value with no collaborator call and no state
change, and a miss step at index 5 leaves the stored entry intact. -/
theorem c8_witness :
    get_youtube_url_from_frame ⟨fun _ => true, fun _ => some "hello"⟩ 1
        ⟨[("0", "a"), ("1", "b"), ("2", "c")], 0, 0⟩
      = ("b", ⟨[("0", "a"), ("1", "b"), ("2", "c")], 0, 0⟩)
    ∧ detect_cache_step (fun _ => "u") (fun _ => "t") 1
        ⟨[(0, ("a", "ta")), (1, ("b", "tb")), (2, ("c", "tc"))], 0, 0⟩
      = (("b", "tb"), ⟨[(0, ("a", "ta")), (1, ("b", "tb")), (2, ("c", "tc"))], 0, 0⟩)
    ∧ lookupAssoc (toString 1)
        ((get_youtube_url_from_frame ⟨fun _ => true, fun _ => some "hello"⟩ 5
          ⟨[("0", "a"), ("1", "b"), ("2", "c")], 0, 0⟩).2).entries = some "b" :=
  c8_cache_hit ⟨fun _ => true, fun _ => some "hello"⟩
    ⟨[("0", "a"), ("1", "b"), ("2", "c")], 0, 0⟩ 1 "b" (by decide) (by decide)
    5 (fun _ => "u") (fun _ => "t")
    ⟨[(0, ("a", "ta")), (1, ("b", "tb")), (2, ("c", "tc"))], 0, 0⟩ ("b", "tb")
    (by decide)

/-- Claim C9, counterexample: in `main.py` a single cache miss — one new
entry — already triggers a flush (`save_cache` runs on every miss), so the
cache is NOT flushed "only at a fixed cadence of every N new entries with
N > 1". -/
theorem c9_counterexample :
    ((get_youtube_url_from_frame ⟨fun _ => true, fun _ => some "hello"⟩ 7
        ⟨[], 0, 0⟩).2).saves = 1
    ∧ ((get_youtube_url_from_frame ⟨fun _ => true, fun _ => some "hello"⟩ 7
        ⟨[], 0, 0⟩).2).entries.length = 1 :=
  ⟨by decide, by decide⟩

/-- Claim C9 (amended): `main.py` flushes the cache to disk after EVERY new
entry (`save_cache` on every miss); only `main_upgraded.py` rate-limits the
flush, rewriting the cache file on a miss exactly when the sample index is a
multiple of 100 (plus one final flush after the scan, outside the step
modelled here). -/
theorem c9_amended (env : OcrEnv) (st : CacheState) (idx : Nat)
    (hfe : env.frameExists idx = true)
    (hmiss : lookupAssoc (toString idx) st.entries = none)
    (u1 u2 : Nat → String) (st2 : UpCacheState) (idx2 : Nat)
    (hmiss2 : lookupAssoc idx2 st2.entries = none) :
    ((get_youtube_url_from_frame env idx st).2).saves = st.saves + 1
    ∧ ((detect_cache_step u1 u2 idx2 st2).2).flushes
        = (if idx2 % 100 = 0 then st2.flushes + 1 else st2.flushes) := by
  constructor
  · unfold get_youtube_url_from_frame
    rw [hfe]
    simp only [Bool.not_true, Bool.false_eq_true, if_false]
    rw [hmiss]
  · unfold detect_cache_step
    rw [hmiss2]

/-- Claim C9 witness: the amended claim at a concrete miss (index 7, not a
multiple of 100: the upgraded variant does not flush). -/
theorem c9_witness :
    ((get_youtube_url_from_frame ⟨fun _ => true, fun _ => some "hello"⟩ 7
        ⟨[], 0, 0⟩).2).saves = 0 + 1
    ∧ ((detect_cache_step (fun _ => "u") (fun _ => "t") 7 ⟨[], 0, 0⟩).2).flushes
        = (if 7 % 100 = 0 then 0 + 1 else 0) :=
  c9_amended ⟨fun _ => true, fun _ => some "hello"⟩ ⟨[], 0, 0⟩ 7 (by decide)
    (by decide) (fun _ => "u") (fun _ => "t") ⟨[], 0, 0⟩ 7 (by decide)

/-- Claim C10 (confirmed): the scan loop appends a detected run to the raw
segment list only when its buffered duration `end_time - start_time` is at
least 2 seconds — the hard-coded pre-merge filter of main.py line 538,
distinct from `MIN_SEGMENT_DURATION = 5` which is applied after merging — so
every raw segment in the scan output has duration at least 2, and in
particular a run whose start frame and buffered end frame coincide (duration
0) is never appended. -/
theorem c10_min_duration_prefilter (env : ScanEnv) (total fuel fi : Nat)
    (lastEnd : Int) (lt : String) (seg : RawSeg)
    (h : seg ∈ scanLoop env total fuel fi lastEnd lt []) :
    2 ≤ seg.endT - seg.startT ∧ seg.startF ≠ seg.endF := by
  rcases scanLoop_inv env total fuel fi lastEnd lt [] seg h with hmem | ⟨hd, hs, he⟩
  · exact absurd hmem (List.not_mem_nil seg)
  · have hI : INTERVAL_SECONDS = 3 := rfl
    rw [hI] at hs he
    refine ⟨hd, ?_⟩
    intro heq
    rw [heq] at hs
    omega

/-- Claim C10 witness: a concrete scan producing one raw segment of duration
105 seconds with distinct start and buffered end frames. -/
theorem c10_witness :
    scanLoop envW 60 20 0 (-1) "" [] = [⟨"abcdefghijk", 30, 135, "T", 10, 45⟩]
    ∧ (2 ≤ (⟨"abcdefghijk", 30, 135, "T", 10, 45⟩ : RawSeg).endT
          - (⟨"abcdefghijk", 30, 135, "T", 10, 45⟩ : RawSeg).startT
       ∧ (⟨"abcdefghijk", 30, 135, "T", 10, 45⟩ : RawSeg).startF
          ≠ (⟨"abcdefghijk", 30, 135, "T", 10, 45⟩ : RawSeg).endF) :=
  ⟨by decide,
   c10_min_duration_prefilter envW 60 20 0 (-1) "" _ (by decide)⟩
